import Mathlib

/-!
# GeoCrypt QR — verification of the location-verification core

Shallow embedding of the encrypt/decode/validate/distance/classify core of
the GeoCrypt QR application, together with proofs about the claims of its
specification.

Embedded source files:
* `src/lib/crypto.ts` — `encrypt` / `decrypt` (AES wrapper, shared key).
* the `lib/crypto` variant exporting `encryptData` / `decryptData`.
* `components/qrcode/qr-scanner.tsx` (first variant) — `processDecodedText`
  with the four-field truthiness validation.
* the scanner variant with `getDistanceInMeters` (haversine) and the
  100-meter threshold enforcement.
* the state-machine scanner variant with `handleLocationError`.
* `components/qrcode/LocationVerifier.tsx` — result rendering decision.

External collaborators (CryptoJS AES, `JSON.stringify`/`JSON.parse`,
`Math.atan2`) are not part of the repository; they are modelled from the
specification, as documented at each definition.
-/

set_option maxRecDepth 100000

namespace GeoCrypt

/-! ## Text and byte-sequence model

JavaScript strings are sequences of characters; the cipher and the UTF-8
conversion in `decrypt` act on byte-like sequences.  We model a character
sequence's code units as a `List Nat` and keep the conversion explicit:
`strToBytes` is total, while `bytesToStr?` fails on sequences that are not
valid character codes (modelling `toString(CryptoJS.enc.Utf8)` throwing on
malformed data). -/

def strToBytes (s : String) : List Nat :=
  s.data.map Char.toNat

def validCode (n : Nat) : Prop :=
  n < 55296 ∨ (57343 < n ∧ n < 1114112)

instance (n : Nat) : Decidable (validCode n) := by
  unfold validCode; infer_instance

def bytesToStr? (l : List Nat) : Option String :=
  if ∀ n ∈ l, validCode n then some (String.mk (l.map Char.ofNat)) else none

theorem validCode_toNat (c : Char) : validCode c.toNat := by
  rcases c.valid with h | ⟨h1, h2⟩
  · exact Or.inl h
  · exact Or.inr ⟨h1, h2⟩

theorem bytesToStr?_strToBytes (s : String) : bytesToStr? (strToBytes s) = some s := by
  unfold bytesToStr? strToBytes
  rw [if_pos]
  · congr 1
    cases s with
    | mk data =>
      simp only [List.map_map]
      congr 1
      exact List.map_congr_left (fun c _ => Char.ofNat_toNat c) |>.trans (List.map_id _)
  · intro n hn
    simp only [List.mem_map] at hn
    obtain ⟨c, _, rfl⟩ := hn
    exact validCode_toNat c

/-! ## Decimal digit printing and parsing

Shared machinery used by the textual armor of the ciphertext and by the
JSON number codec.  `natToChars` prints a natural number in decimal,
`takeDigits` consumes a maximal run of decimal digits. -/

def digitChar (d : Nat) : Char := Char.ofNat (48 + d)

def digitVal? (c : Char) : Option Nat :=
  if 48 ≤ c.toNat ∧ c.toNat ≤ 57 then some (c.toNat - 48) else none

/-- Little-endian decimal digits of `n`, with explicit fuel so that the
definition reduces in the kernel (`Nat.digits` is defined by well-founded
recursion and does not). -/
def natDigitsAux : Nat → Nat → List Nat
  | 0, _ => []
  | _ + 1, 0 => []
  | fuel + 1, n + 1 => (n + 1) % 10 :: natDigitsAux fuel ((n + 1) / 10)

def natDigits (n : Nat) : List Nat := natDigitsAux n n

theorem natDigitsAux_eq_digits (fuel n : Nat) (h : n ≤ fuel) :
    natDigitsAux fuel n = Nat.digits 10 n := by
  induction fuel generalizing n with
  | zero =>
    interval_cases n
    simp [natDigitsAux]
  | succ f ih =>
    cases n with
    | zero => simp [natDigitsAux]
    | succ m =>
      rw [natDigitsAux, Nat.digits_def' (by norm_num) (Nat.succ_pos m)]
      congr 1
      exact ih _ (Nat.le_of_lt_succ (Nat.lt_of_lt_of_le
        (Nat.div_lt_self (Nat.succ_pos m) (by norm_num)) h))

theorem natDigits_eq (n : Nat) : natDigits n = Nat.digits 10 n :=
  natDigitsAux_eq_digits n n le_rfl

def natToChars (n : Nat) : List Char :=
  if n = 0 then [digitChar 0] else (natDigits n).reverse.map digitChar

/-- Value of a big-endian digit list. -/
def digitsVal (ds : List Nat) : Nat := Nat.ofDigits 10 ds.reverse

def takeDigits : List Char → List Nat × List Char
  | [] => ([], [])
  | c :: r =>
    match digitVal? c, takeDigits r with
    | some d, (ds, rest) => (d :: ds, rest)
    | none, _ => ([], c :: r)

/-- Heads that stop a digit run: the empty tail or a non-digit character. -/
def stopsDigits : List Char → Prop
  | [] => True
  | c :: _ => digitVal? c = none

theorem digitVal?_digitChar (d : Nat) (h : d < 10) :
    digitVal? (digitChar d) = some d := by
  interval_cases d <;> rfl

theorem takeDigits_append (ds : List Nat) (h : ∀ d ∈ ds, d < 10) (rest : List Char)
    (hrest : stopsDigits rest) :
    takeDigits (ds.map digitChar ++ rest) = (ds, rest) := by
  induction ds with
  | nil =>
    cases rest with
    | nil => rfl
    | cons c r =>
      simp only [stopsDigits] at hrest
      simp [takeDigits, hrest]
  | cons d tl ih =>
    have hd : d < 10 := h d (List.mem_cons_self d tl)
    have ih' := ih (fun x hx => h x (List.mem_cons_of_mem d hx))
    rw [List.map_cons, List.cons_append]
    simp only [takeDigits, digitVal?_digitChar d hd, ih']

theorem digitsVal_natDigits (n : Nat) :
    digitsVal (natDigits n).reverse = n := by
  rw [natDigits_eq]
  unfold digitsVal
  rw [List.reverse_reverse]
  exact Nat.ofDigits_digits 10 n

theorem natToChars_spec (n : Nat) :
    ∃ ds : List Nat, natToChars n = ds.map digitChar ∧ (∀ d ∈ ds, d < 10) ∧
      ds ≠ [] ∧ digitsVal ds = n := by
  by_cases h0 : n = 0
  · subst h0
    exact ⟨[0], rfl, by simp, by simp, rfl⟩
  · refine ⟨(natDigits n).reverse, ?_, ?_, ?_, digitsVal_natDigits n⟩
    · simp [natToChars, h0]
    · intro d hd
      rw [List.mem_reverse, natDigits_eq] at hd
      exact Nat.digits_lt_base (by norm_num) hd
    · simp only [ne_eq, List.reverse_eq_nil_iff, natDigits_eq]
      exact Nat.digits_ne_nil_iff_ne_zero.mpr h0

theorem takeDigits_natToChars (n : Nat) (rest : List Char) (hrest : stopsDigits rest) :
    ∃ ds, takeDigits (natToChars n ++ rest) = (ds, rest) ∧ ds ≠ [] ∧ digitsVal ds = n := by
  obtain ⟨ds, hprint, hlt, hne, hval⟩ := natToChars_spec n
  exact ⟨ds, by rw [hprint, takeDigits_append ds hlt rest hrest], hne, hval⟩

/-! ## JSON model

`JSON.stringify` and `JSON.parse` are JavaScript builtins, not code of this
repository.  Modelled from the spec: "serialize payload to a canonical JSON
string"; "the resulting text does not parse as JSON, or parses but lacks one
or more of \x7bname, latitude, longitude, address\x7d".  The model covers
null, booleans, integer numerals, strings (with escaping of the quote and
backslash metacharacters), arrays and objects; the printer emits no
whitespace (as `JSON.stringify` with no indent argument does) and the parser
accepts exactly the printed forms, failing on any other text.  Object member
access takes the last binding of a key, as JavaScript object construction
does. -/

mutual

inductive Json where
  | null : Json
  | bool (b : Bool) : Json
  | num (n : Int) : Json
  | str (s : String) : Json
  | arr (elems : JsonList) : Json
  | obj (fields : JsonFields) : Json

inductive JsonList where
  | nil : JsonList
  | cons (hd : Json) (tl : JsonList) : JsonList

inductive JsonFields where
  | nil : JsonFields
  | cons (key : String) (val : Json) (tl : JsonFields) : JsonFields

end

def quoteC : Char := Char.ofNat 34
def backC : Char := Char.ofNat 92
def lbraceC : Char := Char.ofNat 123
def rbraceC : Char := Char.ofNat 125
def lbrackC : Char := '['
def rbrackC : Char := ']'
def commaC : Char := ','
def colonC : Char := ':'
def minusC : Char := '-'
def dotC : Char := '.'

def escapeChars : List Char → List Char
  | [] => []
  | c :: r =>
    if c = quoteC ∨ c = backC then backC :: c :: escapeChars r else c :: escapeChars r

def keyChars (k : String) : List Char := quoteC :: escapeChars k.data ++ [quoteC]

def intToChars (n : Int) : List Char :=
  if n < 0 then minusC :: natToChars n.natAbs else natToChars n.toNat

mutual

def stringifyChars : Json → List Char
  | .null => "null".data
  | .bool b => if b then "true".data else "false".data
  | .num n => intToChars n
  | .str s => keyChars s
  | .arr .nil => [lbrackC, rbrackC]
  | .arr (.cons v tl) => lbrackC :: stringifyChars v ++ listTailChars tl ++ [rbrackC]
  | .obj .nil => [lbraceC, rbraceC]
  | .obj (.cons k v tl) =>
      lbraceC :: keyChars k ++ colonC :: stringifyChars v ++ fieldsTailChars tl ++ [rbraceC]

def listTailChars : JsonList → List Char
  | .nil => []
  | .cons v tl => commaC :: stringifyChars v ++ listTailChars tl

def fieldsTailChars : JsonFields → List Char
  | .nil => []
  | .cons k v tl => commaC :: keyChars k ++ colonC :: stringifyChars v ++ fieldsTailChars tl

end

def Json.stringify (v : Json) : String := String.mk (stringifyChars v)

/-- String-body parser, after the opening quote.  The `Bool` records whether
the previous character was an unconsumed backslash. -/
def parseStrAux : Bool → List Char → Option (List Char × List Char)
  | _, [] => none
  | true, e :: r =>
    match parseStrAux false r with
    | some (s, rest) => some (e :: s, rest)
    | none => none
  | false, c :: r =>
    if c = quoteC then some ([], r)
    else if c = backC then parseStrAux true r
    else
      match parseStrAux false r with
      | some (s, rest) => some (c :: s, rest)
      | none => none

def parseStrChars (cs : List Char) : Option (List Char × List Char) :=
  parseStrAux false cs

def parseNumChars (cs : List Char) : Option (Int × List Char) :=
  match cs with
  | [] => none
  | c :: r =>
    if c = minusC then
      match takeDigits r with
      | ([], _) => none
      | (ds, rest) => some (-(digitsVal ds : Int), rest)
    else
      match takeDigits cs with
      | ([], _) => none
      | (ds, rest) => some ((digitsVal ds : Int), rest)

mutual

def parseValue : Nat → List Char → Option (Json × List Char)
  | 0, _ => none
  | fuel + 1, cs =>
    match cs with
    | [] => none
    | c :: r =>
      if c = quoteC then
        match parseStrChars r with
        | some (s, rest) => some (.str (String.mk s), rest)
        | none => none
      else if c = lbraceC then parseObjBody fuel r
      else if c = lbrackC then parseArrBody fuel r
      else if c = 'n' then
        match r with
        | 'u' :: 'l' :: 'l' :: rest => some (.null, rest)
        | _ => none
      else if c = 't' then
        match r with
        | 'r' :: 'u' :: 'e' :: rest => some (.bool true, rest)
        | _ => none
      else if c = 'f' then
        match r with
        | 'a' :: 'l' :: 's' :: 'e' :: rest => some (.bool false, rest)
        | _ => none
      else
        match parseNumChars cs with
        | some (n, rest) => some (.num n, rest)
        | none => none

def parseArrBody : Nat → List Char → Option (Json × List Char)
  | 0, _ => none
  | fuel + 1, cs =>
    match cs with
    | [] => none
    | c :: r =>
      if c = rbrackC then some (.arr .nil, r)
      else
        match parseValue fuel cs with
        | some (v, rest) =>
          match parseArrRest fuel rest with
          | some (tl, rest2) => some (.arr (.cons v tl), rest2)
          | none => none
        | none => none

def parseArrRest : Nat → List Char → Option (JsonList × List Char)
  | 0, _ => none
  | fuel + 1, cs =>
    match cs with
    | [] => none
    | c :: r =>
      if c = rbrackC then some (.nil, r)
      else if c = commaC then
        match parseValue fuel r with
        | some (v, rest) =>
          match parseArrRest fuel rest with
          | some (tl, rest2) => some (.cons v tl, rest2)
          | none => none
        | none => none
      else none

def parseObjBody : Nat → List Char → Option (Json × List Char)
  | 0, _ => none
  | fuel + 1, cs =>
    match cs with
    | [] => none
    | c :: r =>
      if c = rbraceC then some (.obj .nil, r)
      else if c = quoteC then
        match parseStrChars r with
        | some (k, rest) =>
          match rest with
          | [] => none
          | c2 :: rest2 =>
            if c2 = colonC then
              match parseValue fuel rest2 with
              | some (v, rest3) =>
                match parseObjRest fuel rest3 with
                | some (fs, rest4) => some (.obj (.cons (String.mk k) v fs), rest4)
                | none => none
              | none => none
            else none
        | none => none
      else none

def parseObjRest : Nat → List Char → Option (JsonFields × List Char)
  | 0, _ => none
  | fuel + 1, cs =>
    match cs with
    | [] => none
    | c :: r =>
      if c = rbraceC then some (.nil, r)
      else if c = commaC then
        match r with
        | [] => none
        | c2 :: r2 =>
          if c2 = quoteC then
            match parseStrChars r2 with
            | some (k, rest) =>
              match rest with
              | [] => none
              | c3 :: rest2 =>
                if c3 = colonC then
                  match parseValue fuel rest2 with
                  | some (v, rest3) =>
                    match parseObjRest fuel rest3 with
                    | some (fs, rest4) => some (.cons (String.mk k) v fs, rest4)
                    | none => none
                  | none => none
                else none
            | none => none
          else none
      else none

end

def Json.parse (s : String) : Option Json :=
  match parseValue (s.data.length + 1) s.data with
  | some (v, []) => some v
  | _ => none

/-- Object member lookup; the last binding of a key wins, as in JavaScript
object construction. -/
def fieldsGet : JsonFields → String → Option Json
  | .nil, _ => none
  | .cons k v tl, key =>
    match fieldsGet tl key with
    | some r => some r
    | none => if k = key then some v else none

/-- JavaScript property access `o.k` on a decoded value: `undefined` (here
`none`) unless `o` is an object with member `k`. -/
def jsGet : Json → String → Option Json
  | .obj fs, key => fieldsGet fs key
  | _, _ => none

/-- JavaScript truthiness of a possibly-absent (`undefined`) value. -/
def truthy : Option Json → Bool
  | none => false
  | some .null => false
  | some (.bool b) => b
  | some (.num n) => n != 0
  | some (.str s) => s != ""
  | some (.arr _) => true
  | some (.obj _) => true

def atomJson : Json → Bool
  | .null => true
  | .bool _ => true
  | .num _ => true
  | .str _ => true
  | .arr _ => false
  | .obj _ => false

def flatFields : JsonFields → Bool
  | .nil => true
  | .cons _ v tl => atomJson v && flatFields tl

def numFields : JsonFields → Nat
  | .nil => 0
  | .cons _ _ tl => numFields tl + 1

/-! ### Printer–parser inversion

`LocationPayload` values are flat JSON objects (every member value is an
atom: string, number, boolean or null).  We prove that `Json.parse` inverts
`Json.stringify` on every such object. -/
theorem parseStrChars_quote (rest : List Char) :
    parseStrChars (quoteC :: rest) = some ([], rest) := rfl

theorem parseStrChars_back (e : Char) (tail : List Char) :
    parseStrChars (backC :: e :: tail) =
      match parseStrChars tail with
      | some (s, rest) => some (e :: s, rest)
      | none => none := rfl

theorem parseStrChars_other (c : Char) (h1 : ¬c = quoteC) (h2 : ¬c = backC)
    (tail : List Char) :
    parseStrChars (c :: tail) =
      match parseStrChars tail with
      | some (s, rest) => some (c :: s, rest)
      | none => none := by
  simp only [parseStrChars, parseStrAux, if_neg h1, if_neg h2]

theorem parseStrChars_escape (l : List Char) (rest : List Char) :
    parseStrChars (escapeChars l ++ quoteC :: rest) = some (l, rest) := by
  induction l with
  | nil =>
    rw [show escapeChars [] = [] from rfl, List.nil_append, parseStrChars_quote]
  | cons c r ih =>
    by_cases hesc : c = quoteC ∨ c = backC
    · rw [show escapeChars (c :: r) = backC :: c :: escapeChars r from by
        simp only [escapeChars, if_pos hesc]]
      rw [List.cons_append, List.cons_append, parseStrChars_back, ih]
    · push_neg at hesc
      rw [show escapeChars (c :: r) = c :: escapeChars r from by
        simp only [escapeChars, if_neg (by tauto : ¬(c = quoteC ∨ c = backC))]]
      rw [List.cons_append, parseStrChars_other c hesc.1 hesc.2, ih]

theorem parseValue_quote (fuel : Nat) (tail : List Char) :
    parseValue (fuel + 1) (quoteC :: tail) =
      match parseStrChars tail with
      | some (s, rest) => some (.str (String.mk s), rest)
      | none => none := rfl

theorem parseValue_lbrace (fuel : Nat) (tail : List Char) :
    parseValue (fuel + 1) (lbraceC :: tail) = parseObjBody fuel tail := rfl

theorem parseNumChars_minus (tail : List Char) :
    parseNumChars (minusC :: tail) =
      match takeDigits tail with
      | ([], _) => none
      | (ds, rest) => some (-(digitsVal ds : Int), rest) := rfl

theorem parseValue_minus (fuel : Nat) (tail : List Char) :
    parseValue (fuel + 1) (minusC :: tail) =
      match parseNumChars (minusC :: tail) with
      | some (p, rest) => some (.num p, rest)
      | none => none := rfl

theorem parseValue_digit (d : Nat) (hd : d < 10) (fuel : Nat) (tail : List Char) :
    parseValue (fuel + 1) (digitChar d :: tail) =
      match parseNumChars (digitChar d :: tail) with
      | some (p, rest) => some (.num p, rest)
      | none => none := by
  interval_cases d <;> rfl

theorem parseNumChars_digit (d : Nat) (hd : d < 10) (tail : List Char) :
    parseNumChars (digitChar d :: tail) =
      match takeDigits (digitChar d :: tail) with
      | ([], _) => none
      | (ds, rest) => some ((digitsVal ds : Int), rest) := by
  interval_cases d <;> rfl

theorem parseValue_num (n : Int) (fuel : Nat) (rest : List Char)
    (hrest : stopsDigits rest) :
    parseValue (fuel + 1) (intToChars n ++ rest) = some (.num n, rest) := by
  rcases lt_or_le n 0 with hneg | hpos
  · rw [intToChars, if_pos hneg, List.cons_append, parseValue_minus, parseNumChars_minus]
    obtain ⟨ds, htake, hne, hval⟩ := takeDigits_natToChars n.natAbs rest hrest
    rw [htake]
    cases ds with
    | nil => exact absurd rfl hne
    | cons d dtl =>
      have hn : -((digitsVal (d :: dtl) : Nat) : Int) = n := by rw [hval]; omega
      simp only [hn]
  · rw [intToChars, if_neg (by omega : ¬n < 0)]
    obtain ⟨ds, hprint, hlt, hne, hval⟩ := natToChars_spec n.toNat
    cases ds with
    | nil => exact absurd rfl hne
    | cons d dtl =>
      have hd : d < 10 := hlt d (List.mem_cons_self d dtl)
      rw [hprint, List.map_cons, List.cons_append, parseValue_digit d hd,
        parseNumChars_digit d hd]
      have htake := takeDigits_append (d :: dtl) hlt rest hrest
      rw [List.map_cons, List.cons_append] at htake
      rw [htake]
      have hn : ((digitsVal (d :: dtl) : Nat) : Int) = n := by rw [hval]; omega
      simp only [hn]

theorem parseValue_atom (v : Json) (hv : atomJson v = true) (fuel : Nat)
    (rest : List Char) (hrest : stopsDigits rest) :
    parseValue (fuel + 1) (stringifyChars v ++ rest) = some (v, rest) := by
  cases v with
  | null => rfl
  | bool b => cases b <;> rfl
  | num n => exact parseValue_num n fuel rest hrest
  | str s =>
    cases s with
    | mk l =>
      show parseValue (fuel + 1) ((quoteC :: escapeChars l ++ [quoteC]) ++ rest) = _
      simp only [List.cons_append, List.append_assoc, List.singleton_append,
        List.nil_append]
      rw [parseValue_quote, parseStrChars_escape]
  | arr xs => simp [atomJson] at hv
  | obj fs => simp [atomJson] at hv

theorem parseObjRest_step (fuel : Nat) (kl : List Char) (tail : List Char) :
    parseObjRest (fuel + 1) (commaC :: quoteC :: (escapeChars kl ++ quoteC :: colonC :: tail)) =
      match parseValue fuel tail with
      | some (v, rest3) =>
        match parseObjRest fuel rest3 with
        | some (fs, rest4) => some (JsonFields.cons (String.mk kl) v fs, rest4)
        | none => none
      | none => none := by
  show (match parseStrChars (escapeChars kl ++ quoteC :: colonC :: tail) with
    | some (k, rest) =>
      match rest with
      | [] => none
      | c3 :: rest2 =>
        if c3 = colonC then
          match parseValue fuel rest2 with
          | some (v, rest3) =>
            match parseObjRest fuel rest3 with
            | some (fs, rest4) => some (JsonFields.cons (String.mk k) v fs, rest4)
            | none => none
          | none => none
        else none
    | none => none) = _
  rw [parseStrChars_escape]
  rfl

theorem parseObjBody_step (fuel : Nat) (kl : List Char) (tail : List Char) :
    parseObjBody (fuel + 1) (quoteC :: (escapeChars kl ++ quoteC :: colonC :: tail)) =
      match parseValue fuel tail with
      | some (v, rest3) =>
        match parseObjRest fuel rest3 with
        | some (fs, rest4) => some (Json.obj (JsonFields.cons (String.mk kl) v fs), rest4)
        | none => none
      | none => none := by
  show (match parseStrChars (escapeChars kl ++ quoteC :: colonC :: tail) with
    | some (k, rest) =>
      match rest with
      | [] => none
      | c2 :: rest2 =>
        if c2 = colonC then
          match parseValue fuel rest2 with
          | some (v, rest3) =>
            match parseObjRest fuel rest3 with
            | some (fs, rest4) => some (Json.obj (JsonFields.cons (String.mk k) v fs), rest4)
            | none => none
          | none => none
        else none
    | none => none) = _
  rw [parseStrChars_escape]
  rfl

theorem stopsDigits_fieldsTail (fs : JsonFields) (rest : List Char) :
    stopsDigits (fieldsTailChars fs ++ rbraceC :: rest) := by
  cases fs with
  | nil =>
    show digitVal? rbraceC = none
    decide
  | cons k v tl =>
    show digitVal? commaC = none
    decide

theorem parseObjRest_round : ∀ fs : JsonFields, flatFields fs = true →
    ∀ fuel rest, numFields fs < fuel →
      parseObjRest fuel (fieldsTailChars fs ++ rbraceC :: rest) = some (fs, rest)
  | .nil, _, fuel, rest, hfuel => by
    cases fuel with
    | zero => omega
    | succ f => rfl
  | .cons k v tl, hflat, fuel, rest, hfuel => by
    simp only [flatFields, Bool.and_eq_true] at hflat
    simp only [numFields] at hfuel
    cases fuel with
    | zero => omega
    | succ f =>
      cases f with
      | zero => omega
      | succ f2 =>
        cases k with
        | mk kl =>
          have harr : fieldsTailChars (.cons (String.mk kl) v tl) ++ rbraceC :: rest =
              commaC :: quoteC :: (escapeChars kl ++ quoteC :: colonC ::
                (stringifyChars v ++ (fieldsTailChars tl ++ rbraceC :: rest))) := by
            show (commaC :: (quoteC :: escapeChars kl ++ [quoteC]) ++
              colonC :: stringifyChars v ++ fieldsTailChars tl) ++ rbraceC :: rest = _
            simp only [List.cons_append, List.append_assoc, List.singleton_append,
              List.nil_append]
          rw [harr, parseObjRest_step,
            parseValue_atom v hflat.1 f2 _ (stopsDigits_fieldsTail tl rest)]
          show (match parseObjRest (f2 + 1) (fieldsTailChars tl ++ rbraceC :: rest) with
            | some (fs, rest4) => some (JsonFields.cons (String.mk kl) v fs, rest4)
            | none => none) = _
          rw [parseObjRest_round tl hflat.2 (f2 + 1) rest (by omega)]

theorem parseValue_flatObj (fs : JsonFields) (hflat : flatFields fs = true) :
    ∀ fuel rest, numFields fs + 1 < fuel →
      parseValue fuel (stringifyChars (.obj fs) ++ rest) = some (.obj fs, rest) := by
  intro fuel rest hfuel
  cases fuel with
  | zero => omega
  | succ f =>
    cases fs with
    | nil =>
      cases f with
      | zero => omega
      | succ f2 =>
        show parseValue (f2 + 1 + 1) ([lbraceC, rbraceC] ++ rest) = _
        rw [show ([lbraceC, rbraceC] : List Char) ++ rest = lbraceC :: rbraceC :: rest
          from rfl]
        rw [parseValue_lbrace]
        rfl
    | cons k v tl =>
      simp only [flatFields, Bool.and_eq_true] at hflat
      simp only [numFields] at hfuel
      cases f with
      | zero => omega
      | succ f2 =>
        cases f2 with
        | zero => omega
        | succ f3 =>
          cases k with
          | mk kl =>
            have harr : stringifyChars (.obj (.cons (String.mk kl) v tl)) ++ rest =
                lbraceC :: quoteC :: (escapeChars kl ++ quoteC :: colonC ::
                  (stringifyChars v ++ (fieldsTailChars tl ++ rbraceC :: rest))) := by
              show (lbraceC :: (quoteC :: escapeChars kl ++ [quoteC]) ++
                colonC :: stringifyChars v ++ fieldsTailChars tl ++ [rbraceC]) ++ rest = _
              simp only [List.cons_append, List.append_assoc, List.singleton_append,
                List.nil_append]
            rw [harr, parseValue_lbrace, parseObjBody_step,
              parseValue_atom v hflat.1 f3 _ (stopsDigits_fieldsTail tl rest)]
            show (match parseObjRest (f3 + 1) (fieldsTailChars tl ++ rbraceC :: rest) with
              | some (fs, rest4) =>
                some (Json.obj (JsonFields.cons (String.mk kl) v fs), rest4)
              | none => none) = _
            rw [parseObjRest_round tl hflat.2 (f3 + 1) rest (by omega)]

theorem fieldsTail_length : ∀ fs : JsonFields,
    numFields fs ≤ (fieldsTailChars fs).length
  | .nil => by simp [numFields, fieldsTailChars]
  | .cons k v tl => by
    have ih := fieldsTail_length tl
    simp only [numFields, fieldsTailChars, List.cons_append, List.length_cons,
      List.length_append]
    omega

theorem parse_stringify_flat (fs : JsonFields) (hflat : flatFields fs = true) :
    Json.parse (Json.stringify (.obj fs)) = some (.obj fs) := by
  have hlen : numFields fs + 1 < (stringifyChars (.obj fs)).length + 1 := by
    cases fs with
    | nil => simp [stringifyChars, numFields]
    | cons k v tl =>
      have := fieldsTail_length tl
      cases k with
      | mk kl =>
        show numFields (.cons (String.mk kl) v tl) + 1 <
          (lbraceC :: (quoteC :: escapeChars kl ++ [quoteC]) ++
            colonC :: stringifyChars v ++ fieldsTailChars tl ++ [rbraceC]).length + 1
        simp only [numFields, List.cons_append, List.length_cons, List.length_append,
          List.length_singleton]
        omega
  have h := parseValue_flatObj fs hflat ((stringifyChars (.obj fs)).length + 1) [] hlen
  rw [List.append_nil] at h
  show (match parseValue ((stringifyChars (.obj fs)).length + 1) (stringifyChars (.obj fs)) with
    | some (v, []) => some v
    | _ => none) = some (.obj fs)
  rw [h]

/-! ## Spec-modelled symmetric cipher

Modelled from the spec: the cipher routine is the external CryptoJS AES
collaborator, not code of this repository ("pass a plaintext JSON string
and a static passphrase to a standard keyed block cipher routine"); the
encoder "appl[ies] a symmetric, keyed, reversible transform (e.g. AES under
the shared key, output encoded as text, e.g. base64-embedded
ciphertext-with-salt)".  The model keeps the observable structure of that
transform:

* encryption is keyed by the passphrase and by an 8-byte salt — CryptoJS
  passphrase mode draws a fresh salt from its random source on every call,
  so the salt appears here as an explicit argument (the shallow embedding
  of that randomness);
* the ciphertext embeds the salt behind the OpenSSL `Salted__` magic bytes
  and is then armored as text (dot-separated decimal numerals stand in for
  base64; the claims are insensitive to the choice of armor);
* decryption under the same passphrase and embedded salt inverts
  encryption; a string that is not a ciphertext of this scheme makes the
  inverse fail (`none`, modelling the library throwing), as does an inverse
  whose output is not a valid character sequence (modelling
  `toString(CryptoJS.enc.Utf8)` throwing on malformed data). -/

def saltedMagic : List Nat := [83, 97, 108, 116, 101, 100, 95, 95]

def mixByte (acc b : Nat) : Nat := (acc * 131 + b + 1) % 65536

/-- Key schedule: a keyed digest of passphrase and salt, the model's
stand-in for `EVP_BytesToKey`. -/
def keyHash (key salt : List Nat) : Nat := (key ++ salt).foldl mixByte 97

def ksByte (h i : Nat) : Nat := (h * (i + 1) + i * i + 7 * i + 3) % 256

def keystream (h n : Nat) : List Nat := (List.range n).map (ksByte h)

def xorBytes (a b : List Nat) : List Nat := List.zipWith Nat.xor a b

def aesEncryptBytes (key salt pt : List Nat) : List Nat :=
  saltedMagic ++ salt ++ xorBytes pt (keystream (keyHash key salt) pt.length)

def aesDecryptBytes (key ct : List Nat) : Option (List Nat) :=
  if ct.take 8 = saltedMagic ∧ 16 ≤ ct.length then
    some (xorBytes (ct.drop 16)
      (keystream (keyHash key ((ct.drop 8).take 8)) (ct.drop 16).length))
  else none

/-- Textual armor of a byte sequence: dot-separated decimal numerals. -/
def encodeBytes : List Nat → List Char
  | [] => []
  | [n] => natToChars n
  | n :: tl => natToChars n ++ dotC :: encodeBytes tl

def encodeBytesStr (l : List Nat) : String := String.mk (encodeBytes l)

def decodeRun : Nat → List Char → Option (List Nat)
  | 0, _ => none
  | fuel + 1, cs =>
    match takeDigits cs with
    | ([], _) => none
    | (ds, rest) =>
      match rest with
      | [] => some [digitsVal ds]
      | c :: r =>
        if c = dotC then
          match decodeRun fuel r with
          | some ns => some (digitsVal ds :: ns)
          | none => none
        else none

def decodeBytes (s : String) : Option (List Nat) :=
  match s.data with
  | [] => some []
  | cs => decodeRun cs.length cs

/-- `CryptoJS.AES.encrypt(text, key).toString()` — spec-modelled. -/
def aesEncrypt (key : String) (salt : List Nat) (text : String) : String :=
  encodeBytesStr (aesEncryptBytes (strToBytes key) salt (strToBytes text))

/-- `CryptoJS.AES.decrypt(ct, key).toString(CryptoJS.enc.Utf8)` —
spec-modelled; `none` models the library throwing. -/
def aesDecrypt (key : String) (ct : String) : Option String :=
  match decodeBytes ct with
  | none => none
  | some bs =>
    match aesDecryptBytes (strToBytes key) bs with
    | none => none
    | some pt => bytesToStr? pt

/-! ## `src/lib/crypto.ts` — `encrypt` / `decrypt` -/

/-- `SECRET_KEY` of `src/lib/crypto.ts` (the environment-fallback value). -/
def SECRET_KEY : String := "default-secret-key-for-dev-12345"

/-- `encrypt` of `src/lib/crypto.ts`.  The salt CryptoJS draws from its
random source at each invocation is passed explicitly. -/
def encrypt (salt : List Nat) (text : String) : String :=
  aesEncrypt SECRET_KEY salt text

/-- `decrypt` of `src/lib/crypto.ts`: inverse transform, then the empty
check; any exception is caught and turned into `null` (`none`). -/
def decrypt (ciphertext : String) : Option String :=
  match aesDecrypt SECRET_KEY ciphertext with
  | none => none
  | some originalText => if originalText = "" then none else some originalText

/-! ## The `lib/crypto` variant — `encryptData` / `decryptData` -/

/-- `SECRET_KEY` of the `encryptData`/`decryptData` crypto module (its
environment-fallback value). -/
def DATA_SECRET_KEY : String := "my-secret-key"

def decryptDataErrorMsg : String :=
  "Failed to decrypt data. The QR code may be invalid, corrupted, or encrypted with a different key."

/-- `encryptData`: `JSON.stringify` then AES under the shared key. -/
def encryptData (salt : List Nat) (data : Json) : String :=
  aesEncrypt DATA_SECRET_KEY salt (Json.stringify data)

/-- `decryptData`: AES inverse, empty-string check, `JSON.parse`; every
failure inside the `try` is caught and rethrown as the one decryption
error (`Except.error`). -/
def decryptData (cipherText : String) : Except String Json :=
  match aesDecrypt DATA_SECRET_KEY cipherText with
  | none => .error decryptDataErrorMsg
  | some decrypted =>
    if decrypted = "" then .error decryptDataErrorMsg
    else
      match Json.parse decrypted with
      | none => .error decryptDataErrorMsg
      | some j => .ok j

/-! ### Cipher round-trip lemmas -/

theorem natToChars_ne_nil (n : Nat) : natToChars n ≠ [] := by
  obtain ⟨ds, hprint, _, hne, _⟩ := natToChars_spec n
  rw [hprint]
  simpa using hne

theorem encodeBytes_length : ∀ l : List Nat, l.length ≤ (encodeBytes l).length
  | [] => le_rfl
  | [n] => by
    have := natToChars_ne_nil n
    have : 0 < (natToChars n).length := List.length_pos.mpr this
    simpa [encodeBytes] using this
  | n :: m :: tl => by
    have ih := encodeBytes_length (m :: tl)
    have h1 : 0 < (natToChars n).length := List.length_pos.mpr (natToChars_ne_nil n)
    show (n :: m :: tl).length ≤ (natToChars n ++ dotC :: encodeBytes (m :: tl)).length
    simp only [List.length_cons, List.length_append] at *
    omega

theorem encodeBytes_ne_nil : ∀ (n : Nat) (tl : List Nat), encodeBytes (n :: tl) ≠ []
  | n, [] => by
    show natToChars n ≠ []
    exact natToChars_ne_nil n
  | n, m :: tl => by
    show natToChars n ++ dotC :: encodeBytes (m :: tl) ≠ []
    simp

theorem decodeRun_encodeBytes : ∀ (l : List Nat), l ≠ [] → ∀ fuel, l.length ≤ fuel →
    decodeRun fuel (encodeBytes l) = some l
  | [], h, _, _ => absurd rfl h
  | [n], _, fuel, hfuel => by
    cases fuel with
    | zero => simp at hfuel
    | succ f =>
      obtain ⟨ds, htake, hne, hval⟩ := takeDigits_natToChars n [] trivial
      rw [List.append_nil] at htake
      show (match takeDigits (natToChars n) with
        | ([], _) => none
        | (ds, rest) =>
          match rest with
          | [] => some [digitsVal ds]
          | c :: r =>
            if c = dotC then
              match decodeRun f r with
              | some ns => some (digitsVal ds :: ns)
              | none => none
            else none) = some [n]
      rw [htake]
      cases ds with
      | nil => exact absurd rfl hne
      | cons d dtl =>
        show some [digitsVal (d :: dtl)] = some [n]
        rw [hval]
  | n :: m :: tl, _, fuel, hfuel => by
    cases fuel with
    | zero => simp at hfuel
    | succ f =>
      have hstop : stopsDigits (dotC :: encodeBytes (m :: tl)) := by
        show digitVal? dotC = none
        decide
      obtain ⟨ds, htake, hne, hval⟩ :=
        takeDigits_natToChars n (dotC :: encodeBytes (m :: tl)) hstop
      show (match takeDigits (natToChars n ++ dotC :: encodeBytes (m :: tl)) with
        | ([], _) => none
        | (ds, rest) =>
          match rest with
          | [] => some [digitsVal ds]
          | c :: r =>
            if c = dotC then
              match decodeRun f r with
              | some ns => some (digitsVal ds :: ns)
              | none => none
            else none) = some (n :: m :: tl)
      rw [htake]
      cases ds with
      | nil => exact absurd rfl hne
      | cons d dtl =>
        have hrec := decodeRun_encodeBytes (m :: tl) (by simp) f
          (by simp only [List.length_cons] at hfuel ⊢; omega)
        show (if dotC = dotC then
            match decodeRun f (encodeBytes (m :: tl)) with
            | some ns => some (digitsVal (d :: dtl) :: ns)
            | none => none
          else none) = some (n :: m :: tl)
        rw [if_pos rfl, hrec]
        show some (digitsVal (d :: dtl) :: m :: tl) = _
        rw [hval]

theorem decodeBytes_encodeBytesStr : ∀ l : List Nat,
    decodeBytes (encodeBytesStr l) = some l
  | [] => rfl
  | n :: tl => by
    have hne := encodeBytes_ne_nil n tl
    have hlen := encodeBytes_length (n :: tl)
    show (match encodeBytes (n :: tl) with
      | [] => some []
      | cs => decodeRun cs.length cs) = some (n :: tl)
    cases h : encodeBytes (n :: tl) with
    | nil => exact absurd h hne
    | cons c cs2 =>
      show decodeRun (c :: cs2).length (c :: cs2) = some (n :: tl)
      rw [← h]
      exact decodeRun_encodeBytes (n :: tl) (by simp) _ (h ▸ hlen)

theorem xorBytes_cancel : ∀ a b : List Nat, a.length = b.length →
    xorBytes (xorBytes a b) b = a
  | [], [], _ => rfl
  | [], b :: bs, h => by simp at h
  | a :: as, [], h => by simp at h
  | a :: as, b :: bs, h => by
    show (a ^^^ b ^^^ b) :: xorBytes (xorBytes as bs) bs = a :: as
    rw [Nat.xor_cancel_right, xorBytes_cancel as bs (by simpa using h)]

theorem keystream_length (h n : Nat) : (keystream h n).length = n := by
  simp [keystream]

theorem xorBytes_keystream_length (pt : List Nat) (h : Nat) :
    (xorBytes pt (keystream h pt.length)).length = pt.length := by
  simp [xorBytes, keystream_length]

theorem aesDecryptBytes_round (key salt pt : List Nat) (hs : salt.length = 8) :
    aesDecryptBytes key (aesEncryptBytes key salt pt) = some pt := by
  unfold aesEncryptBytes aesDecryptBytes
  have h16 : (saltedMagic ++ salt).length = 16 := by
    simp [saltedMagic, hs]
  have htake : (saltedMagic ++ salt ++
      xorBytes pt (keystream (keyHash key salt) pt.length)).take 8 = saltedMagic := by
    rw [List.append_assoc]
    exact List.take_left' rfl
  have hlen : 16 ≤ (saltedMagic ++ salt ++
      xorBytes pt (keystream (keyHash key salt) pt.length)).length := by
    simp only [List.length_append]
    simp only [saltedMagic, List.length_cons, List.length_nil, hs]
    omega
  rw [if_pos ⟨htake, hlen⟩]
  have hdrop8 : (saltedMagic ++ salt ++
      xorBytes pt (keystream (keyHash key salt) pt.length)).drop 8 =
      salt ++ xorBytes pt (keystream (keyHash key salt) pt.length) := by
    rw [List.append_assoc]
    exact List.drop_left' rfl
  have hdrop16 : (saltedMagic ++ salt ++
      xorBytes pt (keystream (keyHash key salt) pt.length)).drop 16 =
      xorBytes pt (keystream (keyHash key salt) pt.length) :=
    List.drop_left' h16
  rw [hdrop8, hdrop16, List.take_left' hs, xorBytes_keystream_length]
  rw [xorBytes_cancel pt (keystream (keyHash key salt) pt.length)
    (keystream_length (keyHash key salt) pt.length).symm]

theorem aesDecrypt_round (key : String) (salt : List Nat) (hs : salt.length = 8)
    (text : String) : aesDecrypt key (aesEncrypt key salt text) = some text := by
  unfold aesEncrypt aesDecrypt
  rw [decodeBytes_encodeBytesStr]
  show (match aesDecryptBytes (strToBytes key)
      (aesEncryptBytes (strToBytes key) salt (strToBytes text)) with
    | none => none
    | some pt => bytesToStr? pt) = some text
  rw [aesDecryptBytes_round _ _ _ hs]
  show bytesToStr? (strToBytes text) = some text
  exact bytesToStr?_strToBytes text

theorem decrypt_encrypt (salt : List Nat) (hs : salt.length = 8) (text : String)
    (hne : text ≠ "") : decrypt (encrypt salt text) = some text := by
  unfold decrypt encrypt
  rw [aesDecrypt_round SECRET_KEY salt hs text]
  show (if text = "" then none else some text) = some text
  rw [if_neg hne]

/-! ## `components/qrcode/qr-scanner.tsx` — `processDecodedText`

The decode/validate pipeline of the four-field scanner variant:
decrypt, `JSON.parse`, then the truthiness check
`!parsed.latitude || !parsed.longitude || !parsed.name || !parsed.address`,
and finally `setTargetLocation` with the four parsed fields. -/

/-- The record passed to `setTargetLocation`; in JavaScript each field holds
whatever (truthy) value the parsed JSON had. -/
structure TargetLocation where
  latitude : Json
  longitude : Json
  name : Json
  address : Json

/-- Exit of one `processDecodedText` run: the success state with a target
location, or the catch branch surfacing the thrown message via `setError`. -/
inductive ScanOutcome where
  | target (t : TargetLocation)
  | scanError (msg : String)

def decryptionFailedMsg : String := "Decryption failed. The QR code may be invalid."

def missingDataMsg : String := "QR code is missing required location data."

/-- Modelled from the spec: the message of the `SyntaxError` thrown by the
external `JSON.parse` on malformed input (engine-specific prose; only its
distinctness from the repository's own messages matters). -/
def jsonSyntaxErrorMsg : String := "Unexpected token in JSON"

def processDecodedText (decodedText : String) : ScanOutcome :=
  match decrypt decodedText with
  | none => .scanError decryptionFailedMsg
  | some decrypted =>
    match Json.parse decrypted with
    | none => .scanError jsonSyntaxErrorMsg
    | some parsed =>
      if !truthy (jsGet parsed "latitude") || !truthy (jsGet parsed "longitude") ||
          !truthy (jsGet parsed "name") || !truthy (jsGet parsed "address") then
        .scanError missingDataMsg
      else
        .target
          { latitude := (jsGet parsed "latitude").getD Json.null
            longitude := (jsGet parsed "longitude").getD Json.null
            name := (jsGet parsed "name").getD Json.null
            address := (jsGet parsed "address").getD Json.null }

/-! ## Haversine distance and the 100-meter classifier

From the scanner variant with `getDistanceInMeters` and
`MAX_ALLOWED_DISTANCE_METERS`.  JavaScript numbers are modelled as real
numbers; `Math.atan2` is a JavaScript builtin, modelled from its
documented piecewise definition. -/

/-- JavaScript `Math.atan2(y, x)` over the reals. -/
noncomputable def atan2 (y x : ℝ) : ℝ :=
  if 0 < x then Real.arctan (y / x)
  else if x < 0 ∧ 0 ≤ y then Real.arctan (y / x) + Real.pi
  else if x < 0 ∧ y < 0 then Real.arctan (y / x) - Real.pi
  else if x = 0 ∧ 0 < y then Real.pi / 2
  else if x = 0 ∧ y < 0 then -(Real.pi / 2)
  else 0

/-- `getDistanceInMeters(lat1, lon1, lat2, lon2)` as written in the source:
`R = 6371e3`, angles converted by `(x * Math.PI) / 180`, haversine `a`,
`c = 2 * Math.atan2(Math.sqrt(a), Math.sqrt(1 - a))`, result `R * c`. -/
noncomputable def getDistanceInMeters (lat1 lon1 lat2 lon2 : ℝ) : ℝ :=
  let R : ℝ := 6371e3
  let phi1 := lat1 * Real.pi / 180
  let phi2 := lat2 * Real.pi / 180
  let dphi := (lat2 - lat1) * Real.pi / 180
  let dlam := (lon2 - lon1) * Real.pi / 180
  let a := Real.sin (dphi / 2) * Real.sin (dphi / 2) +
    Real.cos phi1 * Real.cos phi2 * Real.sin (dlam / 2) * Real.sin (dlam / 2)
  let c := 2 * atan2 (Real.sqrt a) (Real.sqrt (1 - a))
  R * c

/-- The haversine great-circle formula exactly as the specification states
it (for comparison with the source's `getDistanceInMeters`): Earth radius
6,371,000 meters, `a = sin²(Δφ/2) + cos φ1 · cos φ2 · sin²(Δλ/2)`,
`c = 2·atan2(√a, √(1−a))`, `distance = R·c`, angles in radians. -/
noncomputable def haversineSpec (lat1 lon1 lat2 lon2 : ℝ) : ℝ :=
  let R : ℝ := 6371000
  let phi1 := lat1 * Real.pi / 180
  let phi2 := lat2 * Real.pi / 180
  let dphi := (lat2 - lat1) * Real.pi / 180
  let dlam := (lon2 - lon1) * Real.pi / 180
  let a := Real.sin (dphi / 2) ^ 2 + Real.cos phi1 * Real.cos phi2 * Real.sin (dlam / 2) ^ 2
  let c := 2 * atan2 (Real.sqrt a) (Real.sqrt (1 - a))
  R * c

def MAX_ALLOWED_DISTANCE_METERS : ℝ := 100

/-- `\x7b lat, long, accuracy \x7d` from `getCurrentPosition`. -/
structure GeoPosition where
  lat : ℝ
  long : ℝ
  accuracy : ℝ

/-- Outcome of the one-shot `navigator.geolocation.getCurrentPosition`
request (or its absence), passed to the callbacks explicitly. -/
inductive GeoResult where
  | position (pos : GeoPosition)
  | geoError (code : Nat)
  | unsupported

/-- Exit paths of `processDecodedText` in the distance-enforcing scanner
variant; each constructor is one `setError`/`setScannedData` call site:
* `invalidQr msg` — catch branch, `setError(e.message)`;
* `geoFailure` — geolocation error callback, `setError('Could not get your
  location. Please enable location services to verify the QR code.')`;
* `noGeolocation` — `setError("Geolocation is not supported by your browser.")`;
* `tooFar d` — `distance > MAX_ALLOWED_DISTANCE_METERS`, `setError` with the
  distance interpolated into the message;
* `verified qr dev d` — `setScannedData(\x7b qrData, deviceLocation, distance \x7d)`. -/
inductive Outcome8 where
  | invalidQr (msg : String)
  | geoFailure
  | noGeolocation
  | tooFar (distance : ℝ)
  | verified (qrData : Json) (deviceLocation : GeoPosition) (distance : ℝ)

def missingLocationMsg8 : String := "QR code is missing valid location data."

def isNumJson : Option Json → Bool
  | some (.num _) => true
  | _ => false

/-- `o.k1.k2` — property access through one level. -/
def jsGet2 (j : Json) (k1 k2 : String) : Option Json :=
  match jsGet j k1 with
  | some v => jsGet v k2
  | none => none

/-- Numeric value of a field already checked to be a number. -/
noncomputable def jsNumVal : Option Json → ℝ
  | some (.num n) => (n : ℝ)
  | _ => 0

/-- The success-callback classifier: `if (distance > MAX_ALLOWED_DISTANCE_METERS)`
then the distance error, else `setScannedData`. -/
noncomputable def classifyDistance8 (decrypted : Json) (pos : GeoPosition)
    (distance : ℝ) : Outcome8 :=
  if distance > MAX_ALLOWED_DISTANCE_METERS then .tooFar distance
  else .verified decrypted pos distance

/-- `processDecodedText` of the distance-enforcing variant: `decryptData`,
the `location`/`lat`/`long` shape check, then the geolocation callbacks. -/
noncomputable def processDecodedText8 (decodedText : String) (geo : GeoResult) : Outcome8 :=
  match decryptData decodedText with
  | .error msg => .invalidQr msg
  | .ok decrypted =>
    if !truthy (jsGet decrypted "location") ||
        !isNumJson (jsGet2 decrypted "location" "lat") ||
        !isNumJson (jsGet2 decrypted "location" "long") then
      .invalidQr missingLocationMsg8
    else
      match geo with
      | .position pos =>
        classifyDistance8 decrypted pos
          (getDistanceInMeters (jsNumVal (jsGet2 decrypted "location" "lat"))
            (jsNumVal (jsGet2 decrypted "location" "long")) pos.lat pos.long)
      | .geoError _ => .geoFailure
      | .unsupported => .noGeolocation

/-- The source's validity condition on the decrypted payload, as one
predicate: `decrypted.location` truthy and `lat`/`long` numbers. -/
def locationValid8 (j : Json) : Bool :=
  truthy (jsGet j "location") && isNumJson (jsGet2 j "location" "lat") &&
    isNumJson (jsGet2 j "location" "long")

/-! ## `components/qrcode/LocationVerifier.tsx` — result rendering decision -/

/-- The four mutually exclusive cards `LocationVerifier` can render. -/
inductive VerifierView where
  | permissionError (msg : String)
  | tooFarView (distance : ℝ)
  | successView
  | invalidState

/-- The render decision of `LocationVerifier`: `if (error)` the
permission-required card; `if (distance !== null && distance > 100)` the
too-far card; `if (distance !== null && distance <= 100)` the success card;
otherwise the invalid-state fallback. -/
noncomputable def locationVerifierView (error : Option String) (distance : Option ℝ) :
    VerifierView :=
  match error with
  | some e => .permissionError e
  | none =>
    match distance with
    | some d =>
      if d > 100 then .tooFarView d
      else if d ≤ 100 then .successView
      else .invalidState
    | none => .invalidState

/-! ## The state-machine scanner variant — `handleLocationError` -/

/-- `GeolocationPositionError.PERMISSION_DENIED` (Web API constant). -/
def PERMISSION_DENIED : Nat := 1

def locationDeniedMsg : String :=
  "Location access was denied. You must grant permission to verify your location."

def locationUnavailableMsg : String :=
  "Could not get your location. Please enable location services in your browser settings and try again."

/-- `handleLocationError` of the state-machine scanner variant: the message
chosen for the error; the handler sets `verificationError` to it, moves the
state machine to `result`, and the `result` state renders `LocationVerifier`
with this message as its `error` prop. -/
def handleLocationError (code : Nat) : String :=
  if code = PERMISSION_DENIED then locationDeniedMsg else locationUnavailableMsg

/-! ## The spec's `LocationPayload` validity predicate -/

/-- A valid `LocationPayload` per the spec's data model: a flat JSON object
whose `name`/`address` are non-empty strings and whose
`latitude`/`longitude` are numbers in range. -/
def validPayload (j : Json) : Prop :=
  ∃ fs, j = Json.obj fs ∧ flatFields fs = true ∧
    (∃ s, fieldsGet fs "name" = some (.str s) ∧ s ≠ "") ∧
    (∃ a : Int, fieldsGet fs "latitude" = some (.num a) ∧ -90 ≤ a ∧ a ≤ 90) ∧
    (∃ b : Int, fieldsGet fs "longitude" = some (.num b) ∧ -180 ≤ b ∧ b ≤ 180) ∧
    (∃ t, fieldsGet fs "address" = some (.str t) ∧ t ≠ "")

/-! ## Supporting lemmas and sample data for the claims -/

theorem stringifyObj_ne_nil (fs : JsonFields) : stringifyChars (Json.obj fs) ≠ [] := by
  cases fs with
  | nil =>
    show [lbraceC, rbraceC] ≠ []
    simp
  | cons k v tl =>
    show lbraceC :: keyChars k ++ colonC :: stringifyChars v ++
      fieldsTailChars tl ++ [rbraceC] ≠ []
    simp

theorem decryptData_round (salt : List Nat) (hs : salt.length = 8) (fs : JsonFields)
    (hflat : flatFields fs = true) :
    decryptData (encryptData salt (.obj fs)) = .ok (.obj fs) := by
  unfold decryptData encryptData
  rw [aesDecrypt_round DATA_SECRET_KEY salt hs (Json.stringify (.obj fs))]
  have hne : Json.stringify (Json.obj fs) ≠ "" := by
    intro h
    exact stringifyObj_ne_nil fs (congrArg String.data h)
  show (if Json.stringify (Json.obj fs) = "" then Except.error decryptDataErrorMsg
    else match Json.parse (Json.stringify (Json.obj fs)) with
      | none => Except.error decryptDataErrorMsg
      | some j => Except.ok j) = Except.ok (Json.obj fs)
  rw [if_neg hne, parse_stringify_flat fs hflat]

def sampleSalt : List Nat := [1, 2, 3, 4, 5, 6, 7, 8]

def samplePayloadFields : JsonFields :=
  .cons "name" (.str "Central Park") (.cons "latitude" (.num 40)
    (.cons "longitude" (.num (-73)) (.cons "address" (.str "New York") .nil)))

def samplePayload : Json := .obj samplePayloadFields

/-! ## Claim theorems -/

/-- C1 — Round-trip: for every valid `LocationPayload` p, decoding the
envelope produced by encoding p under the shared key yields Ok(p):
`decryptData (encryptData p) = .ok p`, and `decrypt (encrypt s) = some s`
for every non-empty serialized payload string s (the salt drawn by the
cipher at encryption time is passed explicitly). -/
theorem C1_roundTrip (salt : List Nat) (hsalt : salt.length = 8) (s : String)
    (hs : s ≠ "") (p : Json) (hp : validPayload p) :
    decrypt (encrypt salt s) = some s ∧
      decryptData (encryptData salt p) = .ok p := by
  obtain ⟨fs, rfl, hflat, -⟩ := hp
  exact ⟨decrypt_encrypt salt hsalt s hs, decryptData_round salt hsalt fs hflat⟩

/-- Witness for C1 at a concrete salt, payload string and payload object. -/
theorem C1_roundTrip_witness :
    decrypt (encrypt sampleSalt "hi") = some "hi" ∧
      decryptData (encryptData sampleSalt samplePayload) = .ok samplePayload :=
  C1_roundTrip sampleSalt (by decide) "hi" (by decide) samplePayload
    ⟨samplePayloadFields, rfl, rfl,
      ⟨"Central Park", rfl, by decide⟩,
      ⟨40, rfl, by decide, by decide⟩,
      ⟨-73, rfl, by decide, by decide⟩,
      ⟨"New York", rfl, by decide⟩⟩

/-- C10 — The empty plaintext is unrepresentable: even under the correct
key, `decrypt (encrypt "") = none` (the empty decryption result is
classified as failure), so the round-trip property does not hold for the
empty input. -/
theorem C10_emptyPlaintext (salt : List Nat) (hs : salt.length = 8) :
    decrypt (encrypt salt "") = none := by
  unfold decrypt encrypt
  rw [aesDecrypt_round SECRET_KEY salt hs ""]
  show (if ("" : String) = "" then none else some "") = none
  rw [if_pos rfl]

/-- Witness for C10 at a concrete salt. -/
theorem C10_emptyPlaintext_witness : decrypt (encrypt sampleSalt "") = none :=
  C10_emptyPlaintext sampleSalt (by decide)

/-- C4 — Decode totality on garbage input: for every input string `decrypt`
returns a value (never crashes), returning `none` whenever the cryptographic
inverse fails or yields the empty result, and never returning an empty
success; `decryptData` turns an inverse failure into the decryption-failure
error. -/
theorem C4_decodeTotality (ct : String) :
    (decrypt ct = none ∨ ∃ s, s ≠ "" ∧ decrypt ct = some s) ∧
    (aesDecrypt SECRET_KEY ct = none → decrypt ct = none) ∧
    (aesDecrypt SECRET_KEY ct = some "" → decrypt ct = none) ∧
    (aesDecrypt DATA_SECRET_KEY ct = none →
      decryptData ct = .error decryptDataErrorMsg) := by
  refine ⟨?_, ?_, ?_, ?_⟩
  · unfold decrypt
    cases h : aesDecrypt SECRET_KEY ct with
    | none => exact Or.inl rfl
    | some s =>
      by_cases hse : s = ""
      · subst hse
        refine Or.inl ?_
        show (if ("" : String) = "" then none else some "") = none
        rw [if_pos rfl]
      · refine Or.inr ⟨s, hse, ?_⟩
        show (if s = "" then none else some s) = some s
        rw [if_neg hse]
  · intro h
    unfold decrypt
    rw [h]
  · intro h
    unfold decrypt
    rw [h]
    show (if ("" : String) = "" then none else some "") = none
    rw [if_pos rfl]
  · intro h
    unfold decryptData
    rw [h]

/-- Witness for C4 on the concrete garbage envelope `"hello"` (scenario C):
both decoders classify it as a decryption failure. -/
theorem C4_decodeTotality_witness :
    decrypt "hello" = none ∧ decryptData "hello" = .error decryptDataErrorMsg :=
  ⟨(C4_decodeTotality "hello").2.1 rfl, (C4_decodeTotality "hello").2.2.2 rfl⟩

/-- C8 counterexample — `encrypt` as the claim reads it is not a function of
payload and key alone: CryptoJS passphrase-mode encryption draws a fresh
random salt on every invocation, and two invocations that draw different
salts produce different envelope strings for the same payload and key. -/
theorem C8_randomSalt_counterexample :
    encrypt sampleSalt "x" ≠ encrypt [2, 2, 3, 4, 5, 6, 7, 8] "x" := by decide

/-- C8 amended — the envelope is a pure function of the payload, the key and
the salt drawn from the cipher's random source: invocations with equal salts
produce equal envelopes, and (for 8-byte salts) invocations with distinct
salts produce distinct envelopes. -/
theorem C8_encryptDeterminism_amended (salt1 salt2 : List Nat)
    (h1 : salt1.length = 8) (h2 : salt2.length = 8) (text : String) :
    (salt1 = salt2 → encrypt salt1 text = encrypt salt2 text) ∧
    (encrypt salt1 text = encrypt salt2 text → salt1 = salt2) := by
  constructor
  · intro h
    rw [h]
  · intro heq
    have hb : decodeBytes (encrypt salt1 text) = decodeBytes (encrypt salt2 text) :=
      congrArg decodeBytes heq
    rw [show encrypt salt1 text =
        encodeBytesStr (aesEncryptBytes (strToBytes SECRET_KEY) salt1 (strToBytes text))
        from rfl,
      show encrypt salt2 text =
        encodeBytesStr (aesEncryptBytes (strToBytes SECRET_KEY) salt2 (strToBytes text))
        from rfl,
      decodeBytes_encodeBytesStr, decodeBytes_encodeBytesStr] at hb
    have hlist := Option.some.inj hb
    have f : ∀ salt : List Nat, salt.length = 8 →
        ((aesEncryptBytes (strToBytes SECRET_KEY) salt (strToBytes text)).drop 8).take 8 =
          salt := by
      intro salt hs
      unfold aesEncryptBytes
      rw [List.append_assoc, List.drop_left' (show saltedMagic.length = 8 from rfl),
        List.take_left' hs]
    calc salt1 = ((aesEncryptBytes (strToBytes SECRET_KEY) salt1
          (strToBytes text)).drop 8).take 8 := (f salt1 h1).symm
      _ = ((aesEncryptBytes (strToBytes SECRET_KEY) salt2
          (strToBytes text)).drop 8).take 8 := by rw [hlist]
      _ = salt2 := f salt2 h2

/-- Witness for the amended C8 at concrete equal salts. -/
theorem C8_encryptDeterminism_amended_witness :
    encrypt sampleSalt "x" = encrypt sampleSalt "x" :=
  (C8_encryptDeterminism_amended sampleSalt sampleSalt (by decide) (by decide) "x").1 rfl

/-- C2 — Threshold boundary: with no error and a non-null distance `d`, the
verifier renders TooFar exactly when `d > 100` and Success exactly when
`d ≤ 100`; in particular `d = 100` renders Success.  The same non-strict
boundary governs the distance-enforcing scanner's classifier. -/
theorem C2_thresholdBoundary (d : ℝ) :
    (locationVerifierView none (some d) = .tooFarView d ↔ 100 < d) ∧
    (locationVerifierView none (some d) = .successView ↔ d ≤ 100) ∧
    locationVerifierView none (some (100 : ℝ)) = .successView ∧
    (∀ (j : Json) (pos : GeoPosition),
      (classifyDistance8 j pos d = .tooFar d ↔ 100 < d) ∧
      (classifyDistance8 j pos d = .verified j pos d ↔ d ≤ 100)) := by
  refine ⟨?_, ?_, ?_, ?_⟩
  · show (if d > 100 then VerifierView.tooFarView d
      else if d ≤ 100 then VerifierView.successView else VerifierView.invalidState) =
        VerifierView.tooFarView d ↔ 100 < d
    constructor
    · intro h
      by_contra hgt
      rw [if_neg hgt, if_pos (not_lt.mp hgt)] at h
      exact VerifierView.noConfusion h
    · intro h
      rw [if_pos h]
  · show (if d > 100 then VerifierView.tooFarView d
      else if d ≤ 100 then VerifierView.successView else VerifierView.invalidState) =
        VerifierView.successView ↔ d ≤ 100
    constructor
    · intro h
      by_contra hgt
      rw [if_pos (not_le.mp hgt)] at h
      exact VerifierView.noConfusion h
    · intro h
      rw [if_neg (not_lt.mpr h), if_pos h]
  · show (if (100 : ℝ) > 100 then VerifierView.tooFarView 100
      else if (100 : ℝ) ≤ 100 then VerifierView.successView else VerifierView.invalidState) =
        VerifierView.successView
    rw [if_neg (lt_irrefl (100 : ℝ)), if_pos le_rfl]
  · intro j pos
    constructor
    · show (if d > MAX_ALLOWED_DISTANCE_METERS then Outcome8.tooFar d
        else Outcome8.verified j pos d) = Outcome8.tooFar d ↔ 100 < d
      unfold MAX_ALLOWED_DISTANCE_METERS
      constructor
      · intro h
        by_contra hgt
        rw [if_neg hgt] at h
        exact Outcome8.noConfusion h
      · intro h
        rw [if_pos h]
    · show (if d > MAX_ALLOWED_DISTANCE_METERS then Outcome8.tooFar d
        else Outcome8.verified j pos d) = Outcome8.verified j pos d ↔ d ≤ 100
      unfold MAX_ALLOWED_DISTANCE_METERS
      constructor
      · intro h
        by_contra hgt
        rw [if_pos (not_le.mp hgt)] at h
        exact Outcome8.noConfusion h
      · intro h
        rw [if_neg (not_lt.mpr h)]

/-- The haversine `a`-term is invariant under swapping the two coordinate
pairs. -/
theorem haversine_a_swap (lat1 lon1 lat2 lon2 : ℝ) :
    Real.sin ((lat2 - lat1) * Real.pi / 180 / 2) *
        Real.sin ((lat2 - lat1) * Real.pi / 180 / 2) +
      Real.cos (lat1 * Real.pi / 180) * Real.cos (lat2 * Real.pi / 180) *
        Real.sin ((lon2 - lon1) * Real.pi / 180 / 2) *
        Real.sin ((lon2 - lon1) * Real.pi / 180 / 2) =
    Real.sin ((lat1 - lat2) * Real.pi / 180 / 2) *
        Real.sin ((lat1 - lat2) * Real.pi / 180 / 2) +
      Real.cos (lat2 * Real.pi / 180) * Real.cos (lat1 * Real.pi / 180) *
        Real.sin ((lon1 - lon2) * Real.pi / 180 / 2) *
        Real.sin ((lon1 - lon2) * Real.pi / 180 / 2) := by
  have h1 : (lat1 - lat2) * Real.pi / 180 / 2 = -((lat2 - lat1) * Real.pi / 180 / 2) := by
    ring
  have h2 : (lon1 - lon2) * Real.pi / 180 / 2 = -((lon2 - lon1) * Real.pi / 180 / 2) := by
    ring
  rw [h1, h2, Real.sin_neg, Real.sin_neg]
  ring

/-- C7 — Distance symmetry: the classifier's distance is symmetric under
swapping the target and device coordinates. -/
theorem C7_distanceSymmetry (lat1 lon1 lat2 lon2 : ℝ) :
    getDistanceInMeters lat1 lon1 lat2 lon2 = getDistanceInMeters lat2 lon2 lat1 lon1 := by
  simp only [getDistanceInMeters]
  rw [haversine_a_swap lat1 lon1 lat2 lon2]

def sampleQr8 : Json :=
  .obj (.cons "data" (.str "hello")
    (.cons "location" (.obj (.cons "lat" (.num 40) (.cons "long" (.num 73) .nil))) .nil))

def sampleEnvelope8 : String := encryptData sampleSalt sampleQr8

/-- C5 — Distance algorithm: the source's `getDistanceInMeters` coincides
with the spec's haversine formula (R = 6,371,000 m, angles in radians), and
the distance-enforcing scanner classifies by exactly that distance applied
to the QR target and the device position. -/
theorem C5_haversine :
    (∀ lat1 lon1 lat2 lon2 : ℝ,
      getDistanceInMeters lat1 lon1 lat2 lon2 = haversineSpec lat1 lon1 lat2 lon2) ∧
    (∀ (decodedText : String) (j : Json) (pos : GeoPosition),
      decryptData decodedText = .ok j → locationValid8 j = true →
      processDecodedText8 decodedText (.position pos) =
        classifyDistance8 j pos
          (getDistanceInMeters (jsNumVal (jsGet2 j "location" "lat"))
            (jsNumVal (jsGet2 j "location" "long")) pos.lat pos.long)) := by
  constructor
  · intro lat1 lon1 lat2 lon2
    simp only [getDistanceInMeters, haversineSpec]
    rw [show (6371e3 : ℝ) = 6371000 from by norm_num]
    have key : ∀ p q r s : ℝ, p * p + q * r * s * s = p ^ 2 + q * r * s ^ 2 := by
      intro p q r s
      ring
    rw [key]
  · intro decodedText j pos hdec hloc
    simp only [locationValid8, Bool.and_eq_true] at hloc
    obtain ⟨⟨hl1, hl2⟩, hl3⟩ := hloc
    unfold processDecodedText8
    rw [hdec]
    show (if !truthy (jsGet j "location") || !isNumJson (jsGet2 j "location" "lat") ||
        !isNumJson (jsGet2 j "location" "long") then Outcome8.invalidQr missingLocationMsg8
      else classifyDistance8 j pos
        (getDistanceInMeters (jsNumVal (jsGet2 j "location" "lat"))
          (jsNumVal (jsGet2 j "location" "long")) pos.lat pos.long)) = _
    rw [hl1, hl2, hl3]
    show (if !true || !true || !true then Outcome8.invalidQr missingLocationMsg8
      else classifyDistance8 j pos
        (getDistanceInMeters (jsNumVal (jsGet2 j "location" "lat"))
          (jsNumVal (jsGet2 j "location" "long")) pos.lat pos.long)) = _
    rw [if_neg (by simp)]

/-- Witness for C5's classifier conjunct at a concrete envelope and device
position. -/
theorem C5_haversine_witness :
    processDecodedText8 sampleEnvelope8 (.position ⟨40, 73, 5⟩) =
      classifyDistance8 sampleQr8 ⟨40, 73, 5⟩
        (getDistanceInMeters (jsNumVal (jsGet2 sampleQr8 "location" "lat"))
          (jsNumVal (jsGet2 sampleQr8 "location" "long")) 40 73) :=
  C5_haversine.2 sampleEnvelope8 sampleQr8 ⟨40, 73, 5⟩ rfl rfl

/-- C6 — Geolocation denial is an error outcome: when the geolocation
collaborator reports `PERMISSION_DENIED`, `handleLocationError` selects the
permission-specific message (distinct from the generic location message),
the state machine reaches the result state whose `LocationVerifier` renders
the error card — never the Success/TooFar cards — and the distance-enforcing
scanner variant likewise ends in its geolocation-error state, producing no
verified/too-far outcome. -/
theorem C6_permissionDenied (code : Nat) (hcode : code = PERMISSION_DENIED)
    (dist : Option ℝ) (decodedText : String) (j : Json) (geoCode : Nat)
    (hdec : decryptData decodedText = .ok j) (hloc : locationValid8 j = true) :
    handleLocationError code = locationDeniedMsg ∧
    locationDeniedMsg ≠ locationUnavailableMsg ∧
    locationVerifierView (some (handleLocationError code)) dist =
      .permissionError locationDeniedMsg ∧
    processDecodedText8 decodedText (.geoError geoCode) = .geoFailure := by
  subst hcode
  have hmsg : handleLocationError PERMISSION_DENIED = locationDeniedMsg := by
    show (if PERMISSION_DENIED = PERMISSION_DENIED then locationDeniedMsg
      else locationUnavailableMsg) = locationDeniedMsg
    rw [if_pos rfl]
  refine ⟨hmsg, by decide, ?_, ?_⟩
  · rw [hmsg]
    rfl
  · simp only [locationValid8, Bool.and_eq_true] at hloc
    obtain ⟨⟨hl1, hl2⟩, hl3⟩ := hloc
    unfold processDecodedText8
    rw [hdec]
    show (if !truthy (jsGet j "location") || !isNumJson (jsGet2 j "location" "lat") ||
        !isNumJson (jsGet2 j "location" "long") then Outcome8.invalidQr missingLocationMsg8
      else Outcome8.geoFailure) = _
    rw [hl1, hl2, hl3]
    show (if !true || !true || !true then Outcome8.invalidQr missingLocationMsg8
      else Outcome8.geoFailure) = _
    rw [if_neg (by simp)]

/-- Witness for C6 at the permission-denied code and a concrete envelope. -/
theorem C6_permissionDenied_witness :
    handleLocationError 1 = locationDeniedMsg ∧
    locationDeniedMsg ≠ locationUnavailableMsg ∧
    locationVerifierView (some (handleLocationError 1)) none =
      .permissionError locationDeniedMsg ∧
    processDecodedText8 sampleEnvelope8 (.geoError 1) = .geoFailure :=
  C6_permissionDenied 1 rfl none sampleEnvelope8 sampleQr8 1 rfl rfl

theorem processDecodedText_eq (env s : String) (hdec : decrypt env = some s) :
    processDecodedText env =
      match Json.parse s with
      | none => .scanError jsonSyntaxErrorMsg
      | some parsed =>
        if !truthy (jsGet parsed "latitude") || !truthy (jsGet parsed "longitude") ||
            !truthy (jsGet parsed "name") || !truthy (jsGet parsed "address") then
          .scanError missingDataMsg
        else
          .target
            { latitude := (jsGet parsed "latitude").getD Json.null
              longitude := (jsGet parsed "longitude").getD Json.null
              name := (jsGet parsed "name").getD Json.null
              address := (jsGet parsed "address").getD Json.null } := by
  unfold processDecodedText
  rw [hdec]

def cexSalt : List Nat := [9, 8, 7, 6, 5, 4, 3, 2]

def cexText : String :=
  "\x7b\"name\":\"a\",\"latitude\":0,\"longitude\":1,\"address\":\"b\"\x7d"

def cexJson : Json :=
  .obj (.cons "name" (.str "a") (.cons "latitude" (.num 0)
    (.cons "longitude" (.num 1) (.cons "address" (.str "b") .nil))))

/-- C3 counterexample — an envelope that decrypts to well-formed JSON in
which all four of name/latitude/longitude/address are present, yet decode
rejects it with the missing-required-location-data error (latitude `0` is
present but falsy): presence of the four fields does not give `Ok`. -/
theorem C3_presenceOnly_counterexample :
    decrypt (encrypt cexSalt cexText) = some cexText ∧
    Json.parse cexText = some cexJson ∧
    (jsGet cexJson "name").isSome = true ∧
    (jsGet cexJson "latitude").isSome = true ∧
    (jsGet cexJson "longitude").isSome = true ∧
    (jsGet cexJson "address").isSome = true ∧
    processDecodedText (encrypt cexSalt cexText) = .scanError missingDataMsg :=
  ⟨rfl, rfl, rfl, rfl, rfl, rfl, rfl⟩

/-- C3 amended — for every envelope whose decryption succeeds: a text that
does not parse as JSON gives the parse error; a parsed payload in which one
of `\x7bname, latitude, longitude, address\x7d` is absent or falsy (JS
truthiness) gives the missing-required-location-data error; and a payload
with all four truthy gives Ok with the fully-populated target location. -/
theorem C3_shapeValidation_amended (env s : String) (hdec : decrypt env = some s) :
    (Json.parse s = none → processDecodedText env = .scanError jsonSyntaxErrorMsg) ∧
    (∀ j, Json.parse s = some j →
      ((truthy (jsGet j "latitude") && truthy (jsGet j "longitude") &&
          truthy (jsGet j "name") && truthy (jsGet j "address")) = false →
        processDecodedText env = .scanError missingDataMsg) ∧
      ((truthy (jsGet j "latitude") && truthy (jsGet j "longitude") &&
          truthy (jsGet j "name") && truthy (jsGet j "address")) = true →
        processDecodedText env = .target
          { latitude := (jsGet j "latitude").getD Json.null
            longitude := (jsGet j "longitude").getD Json.null
            name := (jsGet j "name").getD Json.null
            address := (jsGet j "address").getD Json.null })) := by
  refine ⟨?_, ?_⟩
  · intro hp
    rw [processDecodedText_eq env s hdec, hp]
  · intro j hp
    constructor
    · intro hfalse
      rw [processDecodedText_eq env s hdec, hp]
      show (if (!truthy (jsGet j "latitude") || !truthy (jsGet j "longitude") ||
          !truthy (jsGet j "name") || !truthy (jsGet j "address")) = true then
          ScanOutcome.scanError missingDataMsg
        else ScanOutcome.target
          { latitude := (jsGet j "latitude").getD Json.null
            longitude := (jsGet j "longitude").getD Json.null
            name := (jsGet j "name").getD Json.null
            address := (jsGet j "address").getD Json.null }) =
        ScanOutcome.scanError missingDataMsg
      cases h1 : truthy (jsGet j "latitude") <;>
        cases h2 : truthy (jsGet j "longitude") <;>
        cases h3 : truthy (jsGet j "name") <;>
        cases h4 : truthy (jsGet j "address") <;>
        simp_all
    · intro htrue
      rw [processDecodedText_eq env s hdec, hp]
      simp only [Bool.and_eq_true] at htrue
      obtain ⟨⟨⟨ha, hb⟩, hc⟩, hd⟩ := htrue
      show (if (!truthy (jsGet j "latitude") || !truthy (jsGet j "longitude") ||
          !truthy (jsGet j "name") || !truthy (jsGet j "address")) = true then
          ScanOutcome.scanError missingDataMsg
        else ScanOutcome.target
          { latitude := (jsGet j "latitude").getD Json.null
            longitude := (jsGet j "longitude").getD Json.null
            name := (jsGet j "name").getD Json.null
            address := (jsGet j "address").getD Json.null }) =
        ScanOutcome.target
          { latitude := (jsGet j "latitude").getD Json.null
            longitude := (jsGet j "longitude").getD Json.null
            name := (jsGet j "name").getD Json.null
            address := (jsGet j "address").getD Json.null }
      rw [if_neg (by simp [ha, hb, hc, hd])]

def goodText : String :=
  "\x7b\"name\":\"a\",\"latitude\":2,\"longitude\":1,\"address\":\"b\"\x7d"

def goodJson : Json :=
  .obj (.cons "name" (.str "a") (.cons "latitude" (.num 2)
    (.cons "longitude" (.num 1) (.cons "address" (.str "b") .nil))))

/-- Witness for the amended C3: a concrete all-truthy payload decodes to the
fully-populated target location. -/
theorem C3_shapeValidation_amended_witness :
    processDecodedText (encrypt sampleSalt goodText) = .target
      { latitude := Json.num 2, longitude := Json.num 1,
        name := Json.str "a", address := Json.str "b" } :=
  ((C3_shapeValidation_amended (encrypt sampleSalt goodText) goodText rfl).2
    goodJson rfl).2 rfl

/-- C9 — The decoder's field validation uses truthiness, not presence: a
parsed payload in which all four fields are present but latitude or
longitude is `0`, or name or address is the empty string, is rejected with
the missing-required-location-data error. -/
theorem C9_truthinessValidation (env s : String) (j : Json)
    (hdec : decrypt env = some s) (hparse : Json.parse s = some j)
    (hfalsy : jsGet j "latitude" = some (.num 0) ∨ jsGet j "longitude" = some (.num 0) ∨
      jsGet j "name" = some (.str "") ∨ jsGet j "address" = some (.str "")) :
    processDecodedText env = .scanError missingDataMsg := by
  rw [processDecodedText_eq env s hdec, hparse]
  show (if (!truthy (jsGet j "latitude") || !truthy (jsGet j "longitude") ||
        !truthy (jsGet j "name") || !truthy (jsGet j "address")) = true then
        ScanOutcome.scanError missingDataMsg
      else ScanOutcome.target
        { latitude := (jsGet j "latitude").getD Json.null
          longitude := (jsGet j "longitude").getD Json.null
          name := (jsGet j "name").getD Json.null
          address := (jsGet j "address").getD Json.null }) = _
  rcases hfalsy with h | h | h | h <;>
    rw [if_pos (show (!truthy (jsGet j "latitude") || !truthy (jsGet j "longitude") ||
      !truthy (jsGet j "name") || !truthy (jsGet j "address")) = true
      from by simp [h, truthy])]

/-- Witness for C9: the concrete payload with latitude present but `0` is
rejected. -/
theorem C9_truthinessValidation_witness :
    processDecodedText (encrypt cexSalt cexText) = .scanError missingDataMsg :=
  C9_truthinessValidation (encrypt cexSalt cexText) cexText cexJson rfl rfl (Or.inl rfl)

end GeoCrypt
